import Mathlib

/-!
Verification of the similarity-matching engine in
`dropshipping logic/clip_comparison.py` and
`dropshipping logic/compare_images.py`.

Scalars are modelled as rationals; the numeric environment carries the one
genuinely irrational operation (`np.linalg.norm`) as an abstract function so
that every other arithmetic step of the source is modelled exactly.
External effects (file system, CLIP encoder) are modelled by an explicit
environment record.
-/

/-- An image embedding: the flattened numeric vector produced by the CLIP
encoder (`get_embedding` returns `embedding.cpu().numpy().flatten()`). -/
abbrev Emb := List ℚ

/-- Model of `np.dot` on two vectors of equal length. -/
def vecDot (a b : Emb) : ℚ := (List.zipWith (fun x y => x * y) a b).sum

/-- Pointwise division of a vector by a scalar, as in `a / np.linalg.norm(a)`. -/
def vecDiv (a : Emb) (c : ℚ) : Emb := a.map (fun x => x / c)

/-- The numeric environment: `np.linalg.norm` computes a Euclidean norm whose
value is irrational in general, so it is carried as an abstract scalar-valued
function; everything downstream of it is modelled exactly. -/
structure NumericEnv where
  norm : Emb → ℚ

/-- Source function `cosine_similarity(a, b)` (clip_comparison.py lines 56-68): divide each
vector by its norm and return the dot product of the normalized vectors. -/
def cosine_similarity (ne : NumericEnv) (a b : Emb) : ℚ :=
  vecDot (vecDiv a (ne.norm a)) (vecDiv b (ne.norm b))

/-- Source function `confidence_score(similarity)` (clip_comparison.py lines 71-73):
`float(max(0.0, min(1.0, similarity)) * 100)`. -/
def confidence_score (similarity : ℚ) : ℚ :=
  max 0 (min 1 similarity) * 100

/-- Source function `confidence_label(score)` (clip_comparison.py lines 76-85). -/
def confidence_label (score : ℚ) : String :=
  if score > 95 then "Extremely likely the same image"
  else if score > 90 then "Very likely the same image"
  else if score > 85 then "Possibly the same image"
  else "Unlikely to be the same image"

/-- The effectful environment of the scripts: file-system queries and the
CLIP encoder. `embedOf p = none` models `get_embedding` returning `None`
(the image cannot be opened, decoded or processed); `some v` models a
successful embedding. -/
structure ClipEnv where
  pathExists : String → Bool
  embedOf : String → Option Emb
  listdir : String → List String
  iterdir : String → List String
  isFile : String → Bool

/-- One entry of the `match_details` list built by `compare_images_clip`
(clip_comparison.py lines 146-151). -/
structure MatchDetail where
  path : String
  similarity : ℚ
  confidence : ℚ
  label : String
deriving Repr, DecidableEq

/-- The dictionary returned by `compare_images_clip`. The two early-return
dictionaries (missing reference file, failed reference embedding) contain no
`avg_similarity` key, so that field is an `Option`: `none` models the key
being absent from the returned dictionary. -/
structure ComparisonResult where
  exact_matches : Nat
  total_compared : Nat
  is_dropshipping : Bool
  match_ratio : ℚ
  similarities : List ℚ
  match_details : List MatchDetail
  avg_similarity : Option ℚ
deriving Repr, DecidableEq

/-- The early-return dictionary of `compare_images_clip` (lines 99-106 and
114-121): all-zero fields and no `avg_similarity` key. -/
def zeroComparison : ComparisonResult :=
  { exact_matches := 0, total_compared := 0, is_dropshipping := false,
    match_ratio := 0, similarities := [], match_details := [],
    avg_similarity := none }

/-- Loop state of the candidate loop in `compare_images_clip`
(clip_comparison.py lines 123-126). -/
structure CompareAcc where
  exact_matches : Nat
  total_compared : Nat
  similarities : List ℚ
  match_details : List MatchDetail
deriving Repr, DecidableEq

/-- One iteration of the `for result_path in search_result_paths` loop
(clip_comparison.py lines 129-159): skip missing files and failed embeddings,
otherwise record the similarity with its confidence data and bump the match
counter when the similarity reaches the threshold. -/
def compareStep (ne : NumericEnv) (env : ClipEnv) (original_embedding : Emb)
    (similarity_threshold : ℚ) (acc : CompareAcc) (result_path : String) :
    CompareAcc :=
  if env.pathExists result_path then
    match env.embedOf result_path with
    | none => acc
    | some result_embedding =>
      let sim := cosine_similarity ne original_embedding result_embedding
      let score := confidence_score sim
      { exact_matches :=
          if sim ≥ similarity_threshold then acc.exact_matches + 1
          else acc.exact_matches,
        total_compared := acc.total_compared + 1,
        similarities := acc.similarities ++ [sim],
        match_details := acc.match_details ++
          [{ path := result_path, similarity := sim, confidence := score,
             label := confidence_label score }] }
  else acc

/-- Model of `np.mean` on a list of scalars. -/
def npMean (xs : List ℚ) : ℚ := xs.sum / (xs.length : ℚ)

/-- Source function `compare_images_clip(original_image_path, search_result_paths,
similarity_threshold)` (clip_comparison.py lines 88-172). -/
def compare_images_clip (ne : NumericEnv) (env : ClipEnv)
    (original_image_path : String) (search_result_paths : List String)
    (similarity_threshold : ℚ) : ComparisonResult :=
  if ¬ env.pathExists original_image_path then zeroComparison
  else
    match env.embedOf original_image_path with
    | none => zeroComparison
    | some original_embedding =>
      let acc := search_result_paths.foldl
        (compareStep ne env original_embedding similarity_threshold)
        { exact_matches := 0, total_compared := 0, similarities := [],
          match_details := [] }
      { exact_matches := acc.exact_matches,
        total_compared := acc.total_compared,
        is_dropshipping := decide (acc.exact_matches > 0),
        match_ratio :=
          if acc.total_compared > 0 then
            (acc.exact_matches : ℚ) / (acc.total_compared : ℚ)
          else 0,
        similarities := acc.similarities,
        match_details := acc.match_details,
        avg_similarity :=
          some (if acc.similarities.isEmpty then 0 else npMean acc.similarities) }

/-- Squared Euclidean distance between two vectors: the native metric of the
flat index built by `build_faiss_index` (`faiss.IndexFlatL2`). -/
def sqDist (a b : Emb) : ℚ := (List.zipWith (fun x y => (x - y) * (x - y)) a b).sum

/-- Model of `filename.lower().endswith((".jpg", ".png", ".jpeg"))`
(clip_comparison.py line 211). -/
def isImageFilename (filename : String) : Bool :=
  filename.toLower.endsWith ".jpg" || filename.toLower.endsWith ".png" ||
    filename.toLower.endsWith ".jpeg"

/-- Model of `os.path.join(image_folder, filename)`. -/
def pathJoin (folder filename : String) : String := folder ++ "/" ++ filename

/-- The corpus-collection loop of `reverse_image_search_clip`
(clip_comparison.py lines 206-216): every directory entry with an image
extension is embedded; the `(full_path, embedding)` pairs of the successful
embeddings are kept in directory order. -/
def collectFolder (env : ClipEnv) (image_folder : String) : List (String × Emb) :=
  (env.listdir image_folder).filterMap (fun filename =>
    if isImageFilename filename then
      match env.embedOf (pathJoin image_folder filename) with
      | some emb => some (pathJoin image_folder filename, emb)
      | none => none
    else none)

/-- Ascending order on `(distance, row index)` pairs, keyed by distance. -/
def distLE (a b : ℚ × Nat) : Prop := a.1 ≤ b.1

instance : DecidableRel distLE := fun a b =>
  inferInstanceAs (Decidable (a.1 ≤ b.1))

instance : IsTotal (ℚ × Nat) distLE := ⟨fun a b => le_total a.1 b.1⟩

instance : IsTrans (ℚ × Nat) distLE := ⟨fun _ _ _ h1 h2 => le_trans h1 h2⟩

/-- The contract of the external flat L2 index (`build_faiss_index` plus
`index.search`, clip_comparison.py lines 175-188 and 235): for a query vector
it returns the `k` smallest squared-Euclidean distances to the corpus rows in
ascending order, paired with the row indices attaining them. -/
def faissSearch (corpus : List Emb) (query : Emb) (k : Nat) : List (ℚ × Nat) :=
  (List.insertionSort distLE
    ((List.range corpus.length).map
      (fun i => (sqDist query (corpus.getD i []), i)))).take k

/-- One record of the list returned by `reverse_image_search_clip`
(clip_comparison.py lines 245-252). -/
structure SearchResult where
  rank : Nat
  path : String
  similarity : ℚ
  confidence : ℚ
  label : String
  distance : ℚ
deriving Repr, DecidableEq

/-- Source function `reverse_image_search_clip(image_folder, query_image, top_k)`
(clip_comparison.py lines 191-254). -/
def reverse_image_search_clip (ne : NumericEnv) (env : ClipEnv)
    (image_folder query_image : String) (top_k : Nat) : List SearchResult :=
  let collected := collectFolder env image_folder
  if collected.isEmpty then []
  else
    match env.embedOf query_image with
    | none => []
    | some query_embedding =>
      let paths := collected.map Prod.fst
      let embeddings := collected.map Prod.snd
      let hits := faissSearch embeddings query_embedding (min top_k paths.length)
      hits.enum.map (fun p =>
        let sim := cosine_similarity ne query_embedding (embeddings.getD p.2.2 [])
        let score := confidence_score sim
        { rank := p.1 + 1,
          path := paths.getD p.2.2 "",
          similarity := sim,
          confidence := score,
          label := confidence_label score,
          distance := p.2.1 })

/-- Model of `Path(p).suffix`: the last dotted extension of the final path component,
empty when the component has no dot beyond a leading one. -/
def pathSuffix (p : String) : String :=
  let name := (p.splitOn "/").getLastD ""
  let parts := name.splitOn "."
  if parts.length ≤ 1 then ""
  else if parts.headD "" = "" ∧ parts.length = 2 then ""
  else "." ++ parts.getLastD ""

/-- Model of `Path(p).name`: the final path component. -/
def pathBasename (p : String) : String := (p.splitOn "/").getLastD ""

/-- Source list `image_extensions` (compare_images.py line 31). -/
def image_extensions : List String :=
  [".jpg", ".jpeg", ".png", ".JPG", ".JPEG", ".PNG"]

/-- The directory-listing filter of `compare_original_with_downloaded`
(compare_images.py lines 32-41): regular files whose lower-cased suffix is an
image extension. -/
def imageFiles (env : ClipEnv) (folder : String) : List String :=
  (env.iterdir folder).filter
    (fun f => env.isFile f && image_extensions.contains (pathSuffix f).toLower)

/-- The per-reference-image entry of the orchestrator's report
(compare_images.py lines 86-93). `avg_similarity` is read from the comparison
dictionary with plain indexing, so it inherits that dictionary's optional key. -/
structure RefResult where
  original_path : String
  total_compared : Nat
  exact_matches : Nat
  match_ratio : ℚ
  avg_similarity : Option ℚ
  top_matches : List MatchDetail
deriving Repr, DecidableEq

/-- The descending-similarity order of the orchestrator's sort
(`match_details.sort(key=..., reverse=True)`, compare_images.py line 78). -/
def simDesc (a b : MatchDetail) : Prop := b.similarity ≤ a.similarity

instance : DecidableRel simDesc := fun a b =>
  inferInstanceAs (Decidable (b.similarity ≤ a.similarity))

instance : IsTotal MatchDetail simDesc := ⟨fun a b => le_total b.similarity a.similarity⟩

instance : IsTrans MatchDetail simDesc := ⟨fun _ _ _ h1 h2 => le_trans h2 h1⟩

/-- The body of the per-reference loop of `compare_original_with_downloaded`
(compare_images.py lines 61-93): run the CLIP comparison, sort its match
details by similarity descending, keep only the at-threshold details capped
to the first 10, and copy the aggregate statistics through unchanged. -/
def processReference (ne : NumericEnv) (env : ClipEnv) (orig_img : String)
    (downloaded_paths : List String) (similarity_threshold : ℚ) : RefResult :=
  let comparison := compare_images_clip ne env orig_img downloaded_paths
    similarity_threshold
  let match_details := List.insertionSort simDesc comparison.match_details
  let top_matches :=
    (match_details.filter
      (fun m => decide (m.similarity ≥ similarity_threshold))).take 10
  { original_path := orig_img,
    total_compared := comparison.total_compared,
    exact_matches := comparison.exact_matches,
    match_ratio := comparison.match_ratio,
    avg_similarity := comparison.avg_similarity,
    top_matches := top_matches }

/-- Source function `compare_original_with_downloaded(original_folder, downloaded_folder,
similarity_threshold)` (compare_images.py lines 7-109). The report dictionary
is modelled as an association list keyed by the reference image's file name
(file names within one directory listing are distinct). -/
def compare_original_with_downloaded (ne : NumericEnv) (env : ClipEnv)
    (original_folder downloaded_folder : String) (similarity_threshold : ℚ) :
    List (String × RefResult) :=
  if ¬ env.pathExists original_folder then []
  else if ¬ env.pathExists downloaded_folder then []
  else
    let original_images := imageFiles env original_folder
    let downloaded_images := imageFiles env downloaded_folder
    if original_images.isEmpty then []
    else if downloaded_images.isEmpty then []
    else
      original_images.map (fun orig_img =>
        (pathBasename orig_img,
          processReference ne env orig_img downloaded_images
            similarity_threshold))

/-- The `(path, similarity)` pairs of the candidates that the loop of
`compare_images_clip` actually compares: existing files whose embedding
succeeds, in list order. -/
def comparedPairs (ne : NumericEnv) (env : ClipEnv) (original_embedding : Emb)
    (paths : List String) : List (String × ℚ) :=
  paths.filterMap (fun p =>
    if env.pathExists p then
      (env.embedOf p).map (fun e => (p, cosine_similarity ne original_embedding e))
    else none)

/-- The match-details record built for one compared candidate. -/
def detailOf (p : String × ℚ) : MatchDetail :=
  { path := p.1, similarity := p.2, confidence := confidence_score p.2,
    label := confidence_label (confidence_score p.2) }

theorem foldl_compareStep_eq (ne : NumericEnv) (env : ClipEnv) (emb : Emb)
    (t : ℚ) :
    ∀ (paths : List String) (acc : CompareAcc),
      paths.foldl (compareStep ne env emb t) acc =
        { exact_matches := acc.exact_matches +
            ((comparedPairs ne env emb paths).filter
              (fun p => decide (p.2 ≥ t))).length,
          total_compared := acc.total_compared +
            (comparedPairs ne env emb paths).length,
          similarities := acc.similarities ++
            (comparedPairs ne env emb paths).map Prod.snd,
          match_details := acc.match_details ++
            (comparedPairs ne env emb paths).map detailOf }
  | [], acc => by simp [comparedPairs]
  | p :: ps, acc => by
    rw [List.foldl_cons, foldl_compareStep_eq ne env emb t ps]
    cases hpe : env.pathExists p with
    | false =>
      simp only [compareStep, hpe, Bool.false_eq_true, if_neg, comparedPairs,
        List.filterMap_cons, ite_false]
    | true =>
      cases hemb : env.embedOf p with
      | none =>
        simp [compareStep, hpe, hemb, comparedPairs, List.filterMap_cons]
      | some e =>
        by_cases hth : cosine_similarity ne emb e ≥ t <;>
          simp [compareStep, hpe, hemb, comparedPairs, List.filterMap_cons,
            detailOf, hth, Nat.add_assoc, Nat.add_comm 1]

/-- Spec-side clamp function, `clamp(x, lo, hi)`. -/
def clampQ (x lo hi : ℚ) : ℚ := max lo (min hi x)

/-- C2: `confidence_score s` is `clamp(s, 0, 1) * 100`; consequently it is
monotone non-decreasing over all of its domain, always lands in `[0, 100]`,
and negative similarities are floored to `0` rather than rejected. -/
theorem confidence_score_clamps :
    (∀ s : ℚ, confidence_score s = clampQ s 0 1 * 100)
    ∧ Monotone confidence_score
    ∧ (∀ s : ℚ, 0 ≤ confidence_score s ∧ confidence_score s ≤ 100)
    ∧ (∀ s : ℚ, s < 0 → confidence_score s = 0) := by
  refine ⟨fun s => rfl, ?_, ?_, ?_⟩
  · intro a b hab
    have h : max 0 (min 1 a) ≤ max 0 (min 1 b) :=
      max_le_max le_rfl (min_le_min le_rfl hab)
    have := mul_le_mul_of_nonneg_right h (by norm_num : (0:ℚ) ≤ 100)
    simpa [confidence_score] using this
  · intro s
    constructor
    · have h0 : (0:ℚ) ≤ max 0 (min 1 s) := le_max_left _ _
      have := mul_le_mul_of_nonneg_right h0 (by norm_num : (0:ℚ) ≤ 100)
      simp only [confidence_score]
      linarith
    · have h1 : max 0 (min 1 s) ≤ 1 := max_le (by norm_num) (min_le_left _ _)
      have := mul_le_mul_of_nonneg_right h1 (by norm_num : (0:ℚ) ≤ 100)
      simp only [confidence_score]
      linarith
  · intro s hs
    have hmin : min 1 s = s := min_eq_right (by linarith)
    have hmax : max 0 s = 0 := max_eq_left (le_of_lt hs)
    simp [confidence_score, hmin, hmax]

/-- Witness for C2 at concrete inputs. -/
theorem confidence_score_clamps_witness :
    confidence_score (-(1/2)) = 0 ∧
      confidence_score (1/4) ≤ confidence_score (3/4) :=
  ⟨confidence_score_clamps.2.2.2 (-(1/2)) (by with_unfolding_all decide),
   confidence_score_clamps.2.1 (by with_unfolding_all decide : (1/4 : ℚ) ≤ 3/4)⟩

/-- C3: the confidence tiers use strict boundaries tested top-down: above 95
is the extreme tier, `(90, 95]` the very-likely tier, `(85, 90]` the possible
tier, at or below 85 the unlikely tier; a score of exactly 95 yields the
very-likely label. -/
theorem confidence_label_tiers :
    (∀ s : ℚ, 95 < s → confidence_label s = "Extremely likely the same image")
    ∧ (∀ s : ℚ, 90 < s → s ≤ 95 →
        confidence_label s = "Very likely the same image")
    ∧ (∀ s : ℚ, 85 < s → s ≤ 90 →
        confidence_label s = "Possibly the same image")
    ∧ (∀ s : ℚ, s ≤ 85 → confidence_label s = "Unlikely to be the same image")
    ∧ confidence_label 95 = "Very likely the same image" := by
  refine ⟨?_, ?_, ?_, ?_, ?_⟩
  · intro s hs
    simp [confidence_label, hs]
  · intro s h1 h2
    have hno : ¬ (95:ℚ) < s := not_lt.mpr h2
    simp [confidence_label, hno, h1]
  · intro s h1 h2
    have hn1 : ¬ (95:ℚ) < s := not_lt.mpr (by linarith)
    have hn2 : ¬ (90:ℚ) < s := not_lt.mpr h2
    simp [confidence_label, hn1, hn2, h1]
  · intro s h1
    have hn1 : ¬ (95:ℚ) < s := not_lt.mpr (by linarith)
    have hn2 : ¬ (90:ℚ) < s := not_lt.mpr (by linarith)
    have hn3 : ¬ (85:ℚ) < s := not_lt.mpr h1
    simp [confidence_label, hn1, hn2, hn3]
  · decide

/-- Witness for C3 at the tier boundaries. -/
theorem confidence_label_tiers_witness :
    confidence_label 96 = "Extremely likely the same image"
    ∧ confidence_label 95 = "Very likely the same image"
    ∧ confidence_label 86 = "Possibly the same image"
    ∧ confidence_label 85 = "Unlikely to be the same image" :=
  ⟨confidence_label_tiers.1 96 (by decide),
   confidence_label_tiers.2.1 95 (by decide) (by decide),
   confidence_label_tiers.2.2.1 86 (by decide) (by decide),
   confidence_label_tiers.2.2.2.1 85 (by decide)⟩

theorem compare_images_clip_default (ne : NumericEnv) (env : ClipEnv)
    (ref : String) (paths : List String) (t : ℚ)
    (h : env.pathExists ref = false ∨ env.embedOf ref = none) :
    compare_images_clip ne env ref paths t = zeroComparison := by
  rcases h with h | h
  · simp [compare_images_clip, h]
  · by_cases hpe : env.pathExists ref = true
    · simp [compare_images_clip, hpe, h]
    · simp [compare_images_clip, hpe]

theorem compare_images_clip_eq (ne : NumericEnv) (env : ClipEnv)
    (ref : String) (paths : List String) (t : ℚ) (e : Emb)
    (hpe : env.pathExists ref = true) (hemb : env.embedOf ref = some e) :
    compare_images_clip ne env ref paths t =
      { exact_matches := ((comparedPairs ne env e paths).filter
          (fun p => decide (p.2 ≥ t))).length,
        total_compared := (comparedPairs ne env e paths).length,
        is_dropshipping := decide
          (0 < ((comparedPairs ne env e paths).filter
            (fun p => decide (p.2 ≥ t))).length),
        match_ratio :=
          if 0 < (comparedPairs ne env e paths).length then
            (((comparedPairs ne env e paths).filter
              (fun p => decide (p.2 ≥ t))).length : ℚ) /
              ((comparedPairs ne env e paths).length : ℚ)
          else 0,
        similarities := (comparedPairs ne env e paths).map Prod.snd,
        match_details := (comparedPairs ne env e paths).map detailOf,
        avg_similarity := some
          (if ((comparedPairs ne env e paths).map Prod.snd).isEmpty then 0
           else npMean ((comparedPairs ne env e paths).map Prod.snd)) } := by
  simp [compare_images_clip, hpe, hemb, foldl_compareStep_eq]

theorem length_filter_detailOf (t : ℚ) (l : List (String × ℚ)) :
    (((l.map detailOf).filter (fun m => decide (m.similarity ≥ t))).length)
      = ((l.filter (fun p => decide (p.2 ≥ t))).length) := by
  induction l with
  | nil => rfl
  | cons p l ih => by_cases h : p.2 ≥ t <;> simp [detailOf, h, ih]

/-- A norm oracle suitable for test vectors that are already unit length. -/
def neOne : NumericEnv := { norm := fun _ => 1 }

/-- A test environment in which every path exists and every image embeds to
the vector `[1]`. -/
def envAll : ClipEnv :=
  { pathExists := fun _ => true, embedOf := fun _ => some [1],
    listdir := fun _ => [], iterdir := fun _ => [], isFile := fun _ => true }

/-- A test environment in which no path exists. -/
def envMissing : ClipEnv :=
  { pathExists := fun _ => false, embedOf := fun _ => none,
    listdir := fun _ => [], iterdir := fun _ => [], isFile := fun _ => false }

/-- A test environment in which every path exists but no image can be
decoded into an embedding. -/
def envNoDecode : ClipEnv :=
  { pathExists := fun _ => true, embedOf := fun _ => none,
    listdir := fun _ => [], iterdir := fun _ => [], isFile := fun _ => true }

/-- C1 (code bug): when the reference image is missing, or exists but its
embedding cannot be produced, `compare_images_clip` does return the defined
default without raising — compared count 0, match count 0, ratio 0, verdict
false, empty record lists — but the returned dictionary carries no
`avg_similarity` key at all (modelled as `none`) instead of a mean similarity
of `0.0`; the orchestrator's unconditional `comparison['avg_similarity']`
read fails on exactly this result. -/
theorem compare_default_omits_avg_key :
    compare_images_clip neOne envMissing "ref.jpg" ["a.jpg"] (85/100)
        = zeroComparison
    ∧ compare_images_clip neOne envNoDecode "ref.jpg" ["a.jpg"] (85/100)
        = zeroComparison
    ∧ zeroComparison.exact_matches = 0 ∧ zeroComparison.total_compared = 0
    ∧ zeroComparison.match_ratio = 0
    ∧ zeroComparison.is_dropshipping = false
    ∧ zeroComparison.similarities = ([] : List ℚ)
    ∧ zeroComparison.match_details = ([] : List MatchDetail)
    ∧ zeroComparison.avg_similarity = none
    ∧ zeroComparison.avg_similarity ≠ some 0 := by
  with_unfolding_all decide

/-- C4: a compared candidate is counted in `exact_matches` exactly when its
similarity is at least the threshold (inclusive boundary), the
`is_dropshipping` verdict holds exactly when the match count is positive, and
an empty candidate list yields compared count 0, match ratio 0 and a false
verdict. -/
theorem compare_threshold_inclusive (ne : NumericEnv) (env : ClipEnv)
    (ref : String) (paths : List String) (t : ℚ) (r : ComparisonResult)
    (hr : r = compare_images_clip ne env ref paths t) :
    r.exact_matches =
      (r.match_details.filter (fun m => decide (m.similarity ≥ t))).length
    ∧ r.is_dropshipping = decide (0 < r.exact_matches)
    ∧ (compare_images_clip ne env ref [] t).total_compared = 0
    ∧ (compare_images_clip ne env ref [] t).match_ratio = 0
    ∧ (compare_images_clip ne env ref [] t).is_dropshipping = false := by
  have hnil : ∀ s : ComparisonResult,
      s = compare_images_clip ne env ref [] t →
      s.total_compared = 0 ∧ s.match_ratio = 0 ∧ s.is_dropshipping = false := by
    intro s hs
    by_cases hpe : env.pathExists ref = true
    · cases hemb : env.embedOf ref with
      | none =>
        rw [hs, compare_images_clip_default ne env ref [] t (Or.inr hemb)]
        exact ⟨rfl, rfl, rfl⟩
      | some e =>
        rw [hs, compare_images_clip_eq ne env ref [] t e hpe hemb]
        simp [comparedPairs]
    · rw [hs, compare_images_clip_default ne env ref [] t
        (Or.inl (Bool.not_eq_true _ ▸ hpe))]
      exact ⟨rfl, rfl, rfl⟩
  refine ⟨?_, ?_, (hnil _ rfl).1, (hnil _ rfl).2.1, (hnil _ rfl).2.2⟩
  · by_cases hpe : env.pathExists ref = true
    · cases hemb : env.embedOf ref with
      | none =>
        rw [hr, compare_images_clip_default ne env ref paths t (Or.inr hemb)]
        rfl
      | some e =>
        rw [hr, compare_images_clip_eq ne env ref paths t e hpe hemb]
        exact (length_filter_detailOf t _).symm
    · rw [hr, compare_images_clip_default ne env ref paths t
        (Or.inl (Bool.not_eq_true _ ▸ hpe))]
      rfl
  · by_cases hpe : env.pathExists ref = true
    · cases hemb : env.embedOf ref with
      | none =>
        rw [hr, compare_images_clip_default ne env ref paths t (Or.inr hemb)]
        rfl
      | some e =>
        rw [hr, compare_images_clip_eq ne env ref paths t e hpe hemb]
    · rw [hr, compare_images_clip_default ne env ref paths t
        (Or.inl (Bool.not_eq_true _ ▸ hpe))]
      rfl

/-- Witness for C4 at a concrete environment. -/
theorem compare_threshold_inclusive_witness :
    (compare_images_clip neOne envAll "ref.jpg" ["a.jpg"] (1/2)).exact_matches
      = ((compare_images_clip neOne envAll "ref.jpg" ["a.jpg"]
          (1/2)).match_details.filter
            (fun m => decide (m.similarity ≥ (1/2 : ℚ)))).length :=
  (compare_threshold_inclusive neOne envAll "ref.jpg" ["a.jpg"] (1/2) _ rfl).1

/-- C5: `match_ratio` equals `exact_matches / total_compared` when at least
one candidate was compared and `0` otherwise, so the ratio always lies in
`[0, 1]` and the match count never exceeds the compared count. -/
theorem compare_match_ratio_bounds (ne : NumericEnv) (env : ClipEnv)
    (ref : String) (paths : List String) (t : ℚ) (r : ComparisonResult)
    (hr : r = compare_images_clip ne env ref paths t) :
    (0 < r.total_compared →
      r.match_ratio = (r.exact_matches : ℚ) / (r.total_compared : ℚ))
    ∧ (r.total_compared = 0 → r.match_ratio = 0)
    ∧ 0 ≤ r.match_ratio ∧ r.match_ratio ≤ 1
    ∧ r.exact_matches ≤ r.total_compared := by
  by_cases hpe : env.pathExists ref = true
  case neg =>
    rw [compare_images_clip_default ne env ref paths t
      (Or.inl (Bool.not_eq_true _ ▸ hpe))] at hr
    subst hr
    refine ⟨fun h => absurd h (by simp [zeroComparison]), fun _ => rfl, ?_⟩
    norm_num [zeroComparison]
  case pos =>
    cases hemb : env.embedOf ref with
    | none =>
      rw [compare_images_clip_default ne env ref paths t (Or.inr hemb)] at hr
      subst hr
      refine ⟨fun h => absurd h (by simp [zeroComparison]), fun _ => rfl, ?_⟩
      norm_num [zeroComparison]
    | some e =>
      rw [compare_images_clip_eq ne env ref paths t e hpe hemb] at hr
      subst hr
      set l := comparedPairs ne env e paths with hl
      set fl := l.filter (fun p => decide (p.2 ≥ t)) with hfl
      have hle : fl.length ≤ l.length := List.length_filter_le _ _
      by_cases htc : 0 < l.length
      · have hcast : (0:ℚ) < (l.length : ℚ) := by exact_mod_cast htc
        refine ⟨fun _ => by simp [htc], fun h => absurd h (Nat.pos_iff_ne_zero.mp htc), ?_, ?_, by simpa using hle⟩
        · simp only [htc, if_pos]
          positivity
        · simp only [htc, if_pos]
          rw [div_le_one hcast]
          exact_mod_cast hle
      · have h0 : l.length = 0 := Nat.eq_zero_of_not_pos htc
        have hf0 : fl.length = 0 := Nat.le_zero.mp (h0 ▸ hle)
        refine ⟨fun h => absurd h htc, fun _ => by simp [htc], ?_, ?_, ?_⟩
        · simp [htc]
        · simp [htc]
        · simp [h0, hf0]

/-- Witness for C5 at a concrete environment. -/
theorem compare_match_ratio_bounds_witness :
    (compare_images_clip neOne envAll "ref.jpg" ["a.jpg"] (1/2)).match_ratio
      = ((compare_images_clip neOne envAll "ref.jpg" ["a.jpg"]
            (1/2)).exact_matches : ℚ)
        / ((compare_images_clip neOne envAll "ref.jpg" ["a.jpg"]
            (1/2)).total_compared : ℚ) :=
  (compare_match_ratio_bounds neOne envAll "ref.jpg" ["a.jpg"] (1/2) _ rfl).1
    (by with_unfolding_all decide)

/-- C6: on a reference whose embedding succeeds, `avg_similarity` is present
and equals the arithmetic mean of the similarities of all compared candidates
(not only the matching ones), and it is `0` when no candidate was compared. -/
theorem compare_avg_is_mean (ne : NumericEnv) (env : ClipEnv) (ref : String)
    (paths : List String) (t : ℚ) (e : Emb)
    (hpe : env.pathExists ref = true) (hemb : env.embedOf ref = some e)
    (r : ComparisonResult) (hr : r = compare_images_clip ne env ref paths t) :
    r.similarities = (comparedPairs ne env e paths).map Prod.snd
    ∧ r.avg_similarity = some (if r.similarities = [] then 0
        else r.similarities.sum / (r.similarities.length : ℚ))
    ∧ (r.total_compared = 0 → r.avg_similarity = some 0) := by
  subst hr
  rw [compare_images_clip_eq ne env ref paths t e hpe hemb]
  refine ⟨rfl, ?_, ?_⟩
  · simp [npMean, List.isEmpty_iff]
  · intro h
    have h0 : comparedPairs ne env e paths = [] := by
      simpa using List.length_eq_zero.mp (by simpa using h)
    simp [h0]

/-- Witness for C6 at a concrete environment. -/
theorem compare_avg_is_mean_witness :
    (compare_images_clip neOne envAll "ref.jpg" ["a.jpg", "b.jpg"]
        (1/2)).avg_similarity
      = some (if (compare_images_clip neOne envAll "ref.jpg" ["a.jpg", "b.jpg"]
            (1/2)).similarities = [] then 0
          else (compare_images_clip neOne envAll "ref.jpg" ["a.jpg", "b.jpg"]
              (1/2)).similarities.sum
            / ((compare_images_clip neOne envAll "ref.jpg" ["a.jpg", "b.jpg"]
              (1/2)).similarities.length : ℚ)) :=
  (compare_avg_is_mean neOne envAll "ref.jpg" ["a.jpg", "b.jpg"] (1/2) [1]
    rfl rfl _ rfl).2.1

/-- C10: on a reference whose embedding succeeds, the similarities list, the
compared count and the match-details list all have the same size, and every
match detail carries the confidence score and label computed from its own
similarity. -/
theorem compare_details_aligned (ne : NumericEnv) (env : ClipEnv)
    (ref : String) (paths : List String) (t : ℚ) (e : Emb)
    (hpe : env.pathExists ref = true) (hemb : env.embedOf ref = some e)
    (r : ComparisonResult) (hr : r = compare_images_clip ne env ref paths t) :
    r.similarities.length = r.total_compared
    ∧ r.match_details.length = r.total_compared
    ∧ ∀ m ∈ r.match_details,
        m.confidence = confidence_score m.similarity
        ∧ m.label = confidence_label (confidence_score m.similarity) := by
  subst hr
  rw [compare_images_clip_eq ne env ref paths t e hpe hemb]
  refine ⟨by simp, by simp, ?_⟩
  intro m hm
  simp only [List.mem_map] at hm
  obtain ⟨p, _, rfl⟩ := hm
  exact ⟨rfl, rfl⟩

/-- Witness for C10 at a concrete environment. -/
theorem compare_details_aligned_witness :
    ({ path := "a.jpg", similarity := 1, confidence := 100,
        label := "Extremely likely the same image" } : MatchDetail).confidence
      = confidence_score 1 :=
  ((compare_details_aligned neOne envAll "ref.jpg" ["a.jpg"] (1/2) [1]
      rfl rfl _ rfl).2.2
    { path := "a.jpg", similarity := 1, confidence := 100,
      label := "Extremely likely the same image" }
    (by with_unfolding_all decide)).1

/-- C7: the reverse image search returns the empty list when the candidate
folder yields zero valid embeddings, and likewise when the query image's
embedding cannot be produced. -/
theorem reverse_search_empty_cases (ne : NumericEnv) (env : ClipEnv)
    (folder query : String) (k : Nat) :
    (collectFolder env folder = [] →
      reverse_image_search_clip ne env folder query k = [])
    ∧ (env.embedOf query = none →
      reverse_image_search_clip ne env folder query k = []) := by
  constructor
  · intro h
    simp [reverse_image_search_clip, h]
  · intro h
    by_cases hc : (collectFolder env folder).isEmpty
    · simp [reverse_image_search_clip, hc]
    · simp [reverse_image_search_clip, hc, h]

/-- Witness for C7 at concrete environments. -/
theorem reverse_search_empty_cases_witness :
    reverse_image_search_clip neOne envMissing "folder" "q.jpg" 5 = []
    ∧ reverse_image_search_clip neOne envNoDecode "folder" "q.jpg" 5 = [] :=
  ⟨(reverse_search_empty_cases neOne envMissing "folder" "q.jpg" 5).1
      (by with_unfolding_all decide),
   (reverse_search_empty_cases neOne envNoDecode "folder" "q.jpg" 5).2
      (by with_unfolding_all decide)⟩

theorem faissSearch_length (corpus : List Emb) (query : Emb) (k : Nat) :
    (faissSearch corpus query k).length = min k corpus.length := by
  simp [faissSearch, List.length_insertionSort]

theorem faissSearch_sorted (corpus : List Emb) (query : Emb) (k : Nat) :
    List.Sorted distLE (faissSearch corpus query k) :=
  (List.sorted_insertionSort distLE _).sublist (List.take_sublist _ _)

theorem faissSearch_mem (corpus : List Emb) (query : Emb) (k : Nat)
    (x : ℚ × Nat) (hx : x ∈ faissSearch corpus query k) :
    x.2 < corpus.length ∧ x.1 = sqDist query (corpus.getD x.2 []) := by
  have hmem : x ∈ List.insertionSort distLE
      ((List.range corpus.length).map
        (fun i => (sqDist query (corpus.getD i []), i))) :=
    List.mem_of_mem_take hx
  rw [(List.perm_insertionSort distLE _).mem_iff, List.mem_map] at hmem
  obtain ⟨i, hi, he⟩ := hmem
  rw [List.mem_range] at hi
  cases he
  exact ⟨hi, rfl⟩

theorem faissSearch_nearest (corpus : List Emb) (query : Emb) (k : Nat)
    (x : ℚ × Nat) (hx : x ∈ faissSearch corpus query k) (j : Nat)
    (hj : j < corpus.length)
    (hnot : (sqDist query (corpus.getD j []), j) ∉ faissSearch corpus query k) :
    x.1 ≤ sqDist query (corpus.getD j []) := by
  have hmem : (sqDist query (corpus.getD j []), j) ∈ List.insertionSort distLE
      ((List.range corpus.length).map
        (fun i => (sqDist query (corpus.getD i []), i))) := by
    rw [(List.perm_insertionSort distLE _).mem_iff, List.mem_map]
    exact ⟨j, List.mem_range.mpr hj, rfl⟩
  have hdrop : (sqDist query (corpus.getD j []), j) ∈
      (List.insertionSort distLE
        ((List.range corpus.length).map
          (fun i => (sqDist query (corpus.getD i []), i)))).drop k := by
    rw [← List.take_append_drop k (List.insertionSort distLE
      ((List.range corpus.length).map
        (fun i => (sqDist query (corpus.getD i []), i)))), List.mem_append] at hmem
    rcases hmem with h | h
    · exact absurd h hnot
    · exact h
  exact (List.sorted_insertionSort distLE _).rel_of_mem_take_of_mem_drop hx hdrop

theorem reverse_image_search_clip_eq (ne : NumericEnv) (env : ClipEnv)
    (folder query : String) (k : Nat) (q : Emb)
    (hne : collectFolder env folder ≠ [])
    (hq : env.embedOf query = some q) :
    reverse_image_search_clip ne env folder query k =
      (faissSearch ((collectFolder env folder).map Prod.snd) q
        (min k (collectFolder env folder).length)).enum.map
        (fun p =>
          { rank := p.1 + 1,
            path := ((collectFolder env folder).map Prod.fst).getD p.2.2 "",
            similarity := cosine_similarity ne q
              (((collectFolder env folder).map Prod.snd).getD p.2.2 []),
            confidence := confidence_score (cosine_similarity ne q
              (((collectFolder env folder).map Prod.snd).getD p.2.2 [])),
            label := confidence_label (confidence_score (cosine_similarity ne q
              (((collectFolder env folder).map Prod.snd).getD p.2.2 []))),
            distance := p.2.1 }) := by
  have hc : (collectFolder env folder).isEmpty = false := by
    simpa [List.isEmpty_iff] using hne
  simp [reverse_image_search_clip, hc, hq]

theorem enum_map_add_one {α : Type _} (l : List α) :
    l.enum.map (fun p => p.1 + 1) = List.range' 1 l.length := by
  rw [show (fun p : Nat × α => p.1 + 1) = (fun i => i + 1) ∘ Prod.fst from rfl,
    ← List.map_map, List.enum_map_fst, List.range'_eq_map_range]
  exact List.map_congr_left (fun i _ => Nat.add_comm i 1)

/-- C8: on a corpus with at least one valid embedding and a query that embeds
successfully, the reverse search returns exactly `min k n` records whose ranks
are the consecutive integers `1, ..., min k n` and whose distances are in
ascending order; every record's distance is the squared-Euclidean index
metric against its corpus row, its similarity is the cosine similarity
recomputed from the original vectors, and the selected rows are nearest: no
record's distance exceeds the distance of any unselected corpus row. -/
theorem reverse_search_ranked (ne : NumericEnv) (env : ClipEnv)
    (folder query : String) (k : Nat) (q : Emb)
    (hne : collectFolder env folder ≠ [])
    (hq : env.embedOf query = some q)
    (r : List SearchResult)
    (hr : r = reverse_image_search_clip ne env folder query k) :
    r.length = min k (collectFolder env folder).length
    ∧ r.map SearchResult.rank =
        List.range' 1 (min k (collectFolder env folder).length)
    ∧ List.Sorted (· ≤ ·) (r.map SearchResult.distance)
    ∧ (∀ res ∈ r, ∃ j, j < (collectFolder env folder).length
        ∧ res.path = ((collectFolder env folder).map Prod.fst).getD j ""
        ∧ res.similarity = cosine_similarity ne q
            (((collectFolder env folder).map Prod.snd).getD j [])
        ∧ res.distance = sqDist q
            (((collectFolder env folder).map Prod.snd).getD j []))
    ∧ (∀ res ∈ r, ∀ j, j < (collectFolder env folder).length →
        (sqDist q (((collectFolder env folder).map Prod.snd).getD j []), j)
          ∉ faissSearch ((collectFolder env folder).map Prod.snd) q
            (min k (collectFolder env folder).length) →
        res.distance ≤ sqDist q
          (((collectFolder env folder).map Prod.snd).getD j [])) := by
  subst hr
  rw [reverse_image_search_clip_eq ne env folder query k q hne hq]
  have hclen : ((collectFolder env folder).map Prod.snd).length
      = (collectFolder env folder).length := List.length_map _ _
  have hhits : (faissSearch ((collectFolder env folder).map Prod.snd) q
      (min k (collectFolder env folder).length)).length
      = min k (collectFolder env folder).length := by
    rw [faissSearch_length, hclen, Nat.min_assoc, Nat.min_self]
  refine ⟨?_, ?_, ?_, ?_, ?_⟩
  · simp [hhits]
  · rw [List.map_map]
    have : ∀ p : Nat × (ℚ × Nat), p.1 + 1 = p.1 + 1 := fun _ => rfl
    rw [show (SearchResult.rank ∘ fun p : Nat × (ℚ × Nat) =>
        ({ rank := p.1 + 1,
           path := ((collectFolder env folder).map Prod.fst).getD p.2.2 "",
           similarity := cosine_similarity ne q
             (((collectFolder env folder).map Prod.snd).getD p.2.2 []),
           confidence := confidence_score (cosine_similarity ne q
             (((collectFolder env folder).map Prod.snd).getD p.2.2 [])),
           label := confidence_label (confidence_score (cosine_similarity ne q
             (((collectFolder env folder).map Prod.snd).getD p.2.2 []))),
           distance := p.2.1 } : SearchResult))
        = (fun p : Nat × (ℚ × Nat) => p.1 + 1) from rfl]
    rw [enum_map_add_one, hhits]
  · rw [List.map_map]
    rw [show (SearchResult.distance ∘ fun p : Nat × (ℚ × Nat) =>
        ({ rank := p.1 + 1,
           path := ((collectFolder env folder).map Prod.fst).getD p.2.2 "",
           similarity := cosine_similarity ne q
             (((collectFolder env folder).map Prod.snd).getD p.2.2 []),
           confidence := confidence_score (cosine_similarity ne q
             (((collectFolder env folder).map Prod.snd).getD p.2.2 [])),
           label := confidence_label (confidence_score (cosine_similarity ne q
             (((collectFolder env folder).map Prod.snd).getD p.2.2 []))),
           distance := p.2.1 } : SearchResult))
        = ((fun x : ℚ × Nat => x.1) ∘ Prod.snd) from rfl]
    rw [← List.map_map, List.enum_map_snd]
    exact List.Pairwise.map Prod.fst (fun a b h => h)
      (faissSearch_sorted ((collectFolder env folder).map Prod.snd) q
        (min k (collectFolder env folder).length))
  · intro res hres
    rw [List.mem_map] at hres
    obtain ⟨p, hp, rfl⟩ := hres
    have hsnd : p.2 ∈ faissSearch ((collectFolder env folder).map Prod.snd) q
        (min k (collectFolder env folder).length) := by
      have h := List.mem_map_of_mem Prod.snd hp
      rwa [List.enum_map_snd] at h
    obtain ⟨hj, hd⟩ := faissSearch_mem _ q _ p.2 hsnd
    exact ⟨p.2.2, hclen ▸ hj, rfl, rfl, hd⟩
  · intro res hres j hj hnot
    rw [List.mem_map] at hres
    obtain ⟨p, hp, rfl⟩ := hres
    have hsnd : p.2 ∈ faissSearch ((collectFolder env folder).map Prod.snd) q
        (min k (collectFolder env folder).length) := by
      have h := List.mem_map_of_mem Prod.snd hp
      rwa [List.enum_map_snd] at h
    exact faissSearch_nearest _ q _ p.2 hsnd j (hclen ▸ hj) hnot

/-- A test environment with a two-image corpus for the search engine. -/
def envSearch : ClipEnv :=
  { pathExists := fun _ => true,
    embedOf := fun p =>
      if p = "f/a.jpg" then some [1, 0]
      else if p = "f/b.jpg" then some [0, 1]
      else if p = "q.jpg" then some [1, 0] else none,
    listdir := fun _ => ["a.jpg", "b.jpg", "notes.txt"],
    iterdir := fun _ => [],
    isFile := fun _ => true }

/-- Witness for C8 at a concrete environment. -/
theorem reverse_search_ranked_witness :
    (reverse_image_search_clip neOne envSearch "f" "q.jpg" 5).length
      = min 5 (collectFolder envSearch "f").length
    ∧ (reverse_image_search_clip neOne envSearch "f" "q.jpg" 5).map
        SearchResult.rank
      = List.range' 1 (min 5 (collectFolder envSearch "f").length) :=
  ⟨(reverse_search_ranked neOne envSearch "f" "q.jpg" 5 [1, 0]
      (by with_unfolding_all decide) (by with_unfolding_all decide) _ rfl).1,
   (reverse_search_ranked neOne envSearch "f" "q.jpg" 5 [1, 0]
      (by with_unfolding_all decide) (by with_unfolding_all decide) _ rfl).2.1⟩

theorem exact_matches_eq_filter (ne : NumericEnv) (env : ClipEnv)
    (ref : String) (paths : List String) (t : ℚ) :
    (compare_images_clip ne env ref paths t).exact_matches =
      ((compare_images_clip ne env ref paths t).match_details.filter
        (fun m => decide (m.similarity ≥ t))).length := by
  by_cases hpe : env.pathExists ref = true
  · cases hemb : env.embedOf ref with
    | none =>
      rw [compare_images_clip_default ne env ref paths t (Or.inr hemb)]
      rfl
    | some e =>
      rw [compare_images_clip_eq ne env ref paths t e hpe hemb]
      exact (length_filter_detailOf t _).symm
  · rw [compare_images_clip_default ne env ref paths t
      (Or.inl (Bool.not_eq_true _ ▸ hpe))]
    rfl

/-- C9: each entry of the orchestrator's report keeps as `top_matches` only
match details at or above the threshold, sorted descending by similarity and
capped at 10 entries (the presented list has `min 10 exact_matches` records,
so 15 qualifying matches present exactly 10), while the statistics stored
alongside are those of the full comparison over the entire candidate set. -/
theorem orchestrator_caps_presentation (ne : NumericEnv) (env : ClipEnv)
    (ofolder dfolder orig : String) (downloaded : List String) (t : ℚ) :
    ((∀ m ∈ (processReference ne env orig downloaded t).top_matches,
        m.similarity ≥ t)
    ∧ List.Sorted simDesc (processReference ne env orig downloaded t).top_matches
    ∧ (processReference ne env orig downloaded t).top_matches.length =
        min 10 (compare_images_clip ne env orig downloaded t).exact_matches
    ∧ (processReference ne env orig downloaded t).total_compared =
        (compare_images_clip ne env orig downloaded t).total_compared
    ∧ (processReference ne env orig downloaded t).exact_matches =
        (compare_images_clip ne env orig downloaded t).exact_matches
    ∧ (processReference ne env orig downloaded t).match_ratio =
        (compare_images_clip ne env orig downloaded t).match_ratio
    ∧ (processReference ne env orig downloaded t).avg_similarity =
        (compare_images_clip ne env orig downloaded t).avg_similarity)
    ∧ ∀ entry ∈ compare_original_with_downloaded ne env ofolder dfolder t,
        entry.2 = processReference ne env entry.2.original_path
          (imageFiles env dfolder) t := by
  constructor
  · refine ⟨?_, ?_, ?_, rfl, rfl, rfl, rfl⟩
    · intro m hm
      have hmem := List.mem_of_mem_take hm
      exact of_decide_eq_true (List.mem_filter.mp hmem).2
    · exact ((List.sorted_insertionSort simDesc _).filter _).sublist
        (List.take_sublist _ _)
    · show (((List.insertionSort simDesc
          (compare_images_clip ne env orig downloaded t).match_details).filter
            (fun m => decide (m.similarity ≥ t))).take 10).length =
        min 10 (compare_images_clip ne env orig downloaded t).exact_matches
      rw [List.length_take, exact_matches_eq_filter ne env orig downloaded t,
        ((List.perm_insertionSort simDesc _).filter _).length_eq]
  · intro entry hentry
    unfold compare_original_with_downloaded at hentry
    split at hentry
    · exact absurd hentry (List.not_mem_nil _)
    · split at hentry
      · exact absurd hentry (List.not_mem_nil _)
      · dsimp only at hentry
        split at hentry
        · exact absurd hentry (List.not_mem_nil _)
        · split at hentry
          · exact absurd hentry (List.not_mem_nil _)
          · rw [List.mem_map] at hentry
            obtain ⟨o, ho, rfl⟩ := hentry
            rfl

/-- A test environment with one reference image and one candidate image for
the batch orchestrator. -/
def envBatch : ClipEnv :=
  { pathExists := fun _ => true,
    embedOf := fun _ => some [1],
    listdir := fun _ => [],
    iterdir := fun d => if d = "orig" then ["orig/a.jpg"] else ["down/b.jpg"],
    isFile := fun _ => true }

/-- Witness for C9 at a concrete environment. -/
theorem orchestrator_caps_presentation_witness :
    ({ path := "down/b.jpg", similarity := 1, confidence := 100,
        label := "Extremely likely the same image" } : MatchDetail).similarity
      ≥ (1/2 : ℚ)
    ∧ ("a.jpg", processReference neOne envBatch "orig/a.jpg"
          (imageFiles envBatch "down") (1/2)).2
        = processReference neOne envBatch
            ("a.jpg", processReference neOne envBatch "orig/a.jpg"
              (imageFiles envBatch "down") (1/2)).2.original_path
            (imageFiles envBatch "down") (1/2) :=
  ⟨(orchestrator_caps_presentation neOne envBatch "orig" "down" "orig/a.jpg"
        (imageFiles envBatch "down") (1/2)).1.1
      { path := "down/b.jpg", similarity := 1, confidence := 100,
        label := "Extremely likely the same image" }
      (by with_unfolding_all decide),
   (orchestrator_caps_presentation neOne envBatch "orig" "down" "orig/a.jpg"
        (imageFiles envBatch "down") (1/2)).2
      ("a.jpg", processReference neOne envBatch "orig/a.jpg"
        (imageFiles envBatch "down") (1/2))
      (by with_unfolding_all decide)⟩
